import Mathlib

/-!
Verification of the Scribe-Data CLI core against its design specification.

The development shallowly embeds the three Python sources:
  * `src/scribe_data/cli/interactive.py`  (configuration session and request runner),
  * `src/scribe_data/cli/main.py`         (command surface / argument dispatch),
  * `src/scribe_data/language_data_extraction/Portuguese/verbs/format_verbs.py`.

Python strings are modelled as Lean `String`s; the handful of Python string
methods the sources use (`in`, `split(",")`, `strip()`, `lower()`,
`capitalize()`, `replace("-", "_")`, `sorted`) are given executable structural
definitions over `String.data` so that all predicates are decidable.  The
models cover the Basic-Latin (ASCII) behaviour of the Python methods, which is
the alphabet the CLI registry values and prompts use.
-/

/-! ## Python string primitives -/

/-- Does `pre` occur at the front of `l`?  (Helper for Python `in` on strings.) -/
def charsLead : List Char → List Char → Bool
  | [], _ => true
  | _ :: _, [] => false
  | a :: as, b :: bs => a == b && charsLead as bs

/-- Does `needle` occur as a contiguous run inside `hay`?  (Python `in`.) -/
def charsHasSub (needle : List Char) : List Char → Bool
  | [] => charsLead needle []
  | b :: bs => charsLead needle (b :: bs) || charsHasSub needle bs

/-- Python `needle in hay` for strings: contiguous substring containment. -/
def pyIn (needle hay : String) : Bool :=
  charsHasSub needle.data hay.data

/-- Python `str.lower()` (ASCII letters). -/
def pyLower (s : String) : String :=
  String.mk (s.data.map Char.toLower)

/-- Python `str.capitalize()`: first character upper-cased, the rest
lower-cased (ASCII letters). -/
def pyCapitalize (s : String) : String :=
  match s.data with
  | [] => ""
  | c :: cs => String.mk (Char.toUpper c :: cs.map Char.toLower)

/-- Python `str.strip()`: remove leading and trailing whitespace. -/
def pyStrip (s : String) : String :=
  String.mk (((s.data.dropWhile Char.isWhitespace).reverse.dropWhile Char.isWhitespace).reverse)

/-- Python `str.split(",")` on the character list. -/
def splitCommaChars : List Char → List (List Char)
  | [] => [[]]
  | c :: rest =>
    if c = ',' then [] :: splitCommaChars rest
    else
      match splitCommaChars rest with
      | [] => [[c]]
      | t :: ts => (c :: t) :: ts

/-- Python `str.split(",")`. -/
def pySplitComma (s : String) : List String :=
  (splitCommaChars s.data).map String.mk

/-- Python `str.replace("-", "_")` (single-character pattern, so a plain map). -/
def pyReplaceDashUnderscore (s : String) : String :=
  String.mk (s.data.map (fun c => if c = '-' then '_' else c))

/-- Lexicographic `≤` on character lists by code point (Python string `≤`). -/
def charsLe : List Char → List Char → Bool
  | [], _ => true
  | _ :: _, [] => false
  | a :: as, b :: bs => if a < b then true else if b < a then false else charsLe as bs

/-- Python string comparison `a <= b` (code-point lexicographic). -/
def pyStrLe (a b : String) : Bool :=
  charsLe a.data b.data

/-! ## `interactive.py`: configuration session -/

/-- The mutable interactive-mode configuration (`ScribeDataConfig` in
`interactive.py`).  `languages` / `data_types` are the Vocabulary Registry
lists loaded at start-up (their concrete contents live outside the embedded
sources, so they are parameters of the model); `output_dir` is kept as the
path string. -/
structure ScribeDataConfig where
  languages : List String
  data_types : List String
  selected_languages : List String
  selected_data_types : List String
  output_type : String
  output_dir : String
  overwrite : Bool
  configured : Bool
deriving DecidableEq, Repr

/-- The language-selection step of `configure_settings`
(`interactive.py` lines 123-130): if the raw prompt response contains the
exact substring `"All"`, select every registry language; otherwise split on
commas, strip each token, and keep the tokens that are registry members. -/
def selectLanguagesStep (languages : List String) (input : String) : List String :=
  if pyIn "All" input then languages
  else ((pySplitComma input).map pyStrip).filter (fun lang => languages.contains lang)

/-- The data-type-selection step of `configure_settings`
(`interactive.py` lines 145-152): like the language step, except the
membership test for `"All"` is performed on `input.capitalize()`. -/
def selectDataTypesStep (data_types : List String) (input : String) : List String :=
  if pyIn "All" (pyCapitalize input) then data_types
  else ((pySplitComma input).map pyStrip).filter (fun dt => data_types.contains dt)

/-- The overwrite-confirmation step of `configure_settings`
(`interactive.py` lines 174-179): an empty response defaults to `"y"`, and the
flag is set to whether the lower-cased response equals `"y"`. -/
def overwriteStep (input : String) : Bool :=
  pyLower (if input = "" then "y" else input) == "y"

/-- The prompt states of the configuration session, in the order
`configure_settings` visits them. -/
inductive CState
  | langsState
  | dtsState
  | outTypeState
  | outDirState
  | overwriteState
  | doneState
deriving DecidableEq, Repr

/-- One round of the language prompt, as a state-machine step: the selection
is stored in the configuration; an empty filtered selection emits the warning
and re-enters `configure_settings` from the top (the language prompt itself),
otherwise control moves on to the data-type prompt. -/
def stepLanguages (cfg : ScribeDataConfig) (input : String) :
    ScribeDataConfig × CState × List String :=
  let sel := selectLanguagesStep cfg.languages input
  let cfg' := { cfg with selected_languages := sel }
  if sel.isEmpty then
    (cfg', CState.langsState, ["[yellow]No language selected. Please try again.[/yellow]"])
  else
    (cfg', CState.dtsState, [])

/-- One round of the data-type prompt: an empty filtered selection emits the
warning and re-enters `configure_settings` from the top — i.e. the *language*
prompt (`return configure_settings()`), not the data-type prompt — otherwise
control moves on to the output-type prompt. -/
def stepDataTypes (cfg : ScribeDataConfig) (input : String) :
    ScribeDataConfig × CState × List String :=
  let sel := selectDataTypesStep cfg.data_types input
  let cfg' := { cfg with selected_data_types := sel }
  if sel.isEmpty then
    (cfg', CState.langsState, ["[yellow]No data type selected. Please try again.[/yellow]"])
  else
    (cfg', CState.outTypeState, [])

/-- `n` successive rounds of the language prompt fed the same response, as the
recursive retry of `configure_settings` produces when every round yields an
empty selection. -/
def retryLanguages (input : String) (cfg : ScribeDataConfig) :
    Nat → ScribeDataConfig × CState
  | 0 => (cfg, CState.langsState)
  | n + 1 =>
    let r := stepLanguages cfg input
    if r.2.1 = CState.langsState then retryLanguages input r.1 n
    else (r.1, r.2.1)

/-! ## `interactive.py`: request runner -/

/-- Observable events of `run_request`: a `get_data` invocation, its success
log line, its failure log line, the empty-configuration error, and the
completion notice. -/
inductive REvent
  | call (language data_type : String)
  | okLog (language data_type : String)
  | failLog (language data_type : String)
  | errMsg (msg : String)
  | notice (msg : String)
deriving DecidableEq, Repr

/-- Body of the inner loop of `run_request`: invoke `get_data` on one
(language, data type) pair and log its success or failure. -/
def processPair (get_data : String → String → Bool) (language data_type : String) :
    List REvent :=
  REvent.call language data_type ::
    (if get_data language data_type then
      [REvent.okLog language data_type]
    else
      [REvent.failLog language data_type])

/-- The inner `for data_type in config.selected_data_types` loop. -/
def processDataTypes (get_data : String → String → Bool) (language : String) :
    List String → List REvent
  | [] => []
  | dt :: rest => processPair get_data language dt ++ processDataTypes get_data language rest

/-- The outer `for language in config.selected_languages` loop. -/
def processLanguages (get_data : String → String → Bool) (data_types : List String) :
    List String → List REvent
  | [] => []
  | lang :: rest =>
    processDataTypes get_data lang data_types ++ processLanguages get_data data_types rest

/-- `run_request` (`interactive.py` lines 185-226).  `get_data` is the
external fetch/format/export collaborator, modelled as an oracle returning
the per-pair success flag.  The result is the event trace together with the
configuration after the call (which `run_request` never mutates). -/
def run_request (cfg : ScribeDataConfig) (get_data : String → String → Bool) :
    List REvent × ScribeDataConfig :=
  if cfg.selected_languages.isEmpty || cfg.selected_data_types.isEmpty then
    ([REvent.errMsg "[bold red]Error: Please configure languages and data types.[/bold red]"],
     cfg)
  else
    (processLanguages get_data cfg.selected_data_types cfg.selected_languages ++
      (if cfg.overwrite then
        [REvent.notice "[bold green]Data request completed successfully![/bold green]"]
      else []),
     cfg)

/-- The `get_data` invocations recorded in a trace, in order. -/
def callsOf : List REvent → List (String × String)
  | [] => []
  | REvent.call l d :: rest => (l, d) :: callsOf rest
  | _ :: rest => callsOf rest

/-- The per-pair outcomes recorded in a trace, in order (`true` for the
success log line, `false` for the failure log line). -/
def outcomesOf : List REvent → List Bool
  | [] => []
  | REvent.okLog _ _ :: rest => true :: outcomesOf rest
  | REvent.failLog _ _ :: rest => false :: outcomesOf rest
  | _ :: rest => outcomesOf rest

/-- The cross product of the selected languages and data types in
(outer language, inner data type) order — the order the specification
prescribes for the runner. -/
def pairsOf (langs dts : List String) : List (String × String) :=
  langs.flatMap (fun lang => dts.map (fun dt => (lang, dt)))

/-! ## `main.py`: command surface -/

/-- The Vocabulary Registry: the static language and data-type lists loaded
from metadata at start-up (outside the embedded sources, hence a parameter). -/
structure Registry where
  languages : List String
  data_types : List String
deriving DecidableEq, Repr

/-- The four subcommands of the CLI. -/
inductive Cmd
  | list
  | get
  | total
  | convert
deriving DecidableEq, Repr

/-- The argparse namespace after parsing, restricted to the fields `main`
reads.  String-valued flags parse to `none` when omitted. -/
structure Args where
  command : Option Cmd
  language : Option String
  data_type : Option String
  output_type : Option String
  output_dir : Option String
  outputs_per_entry : Option Nat
  overwrite : Bool
  all : Option Bool
  interactive : Bool
  identifier_case : String
  upgrade : Bool
deriving DecidableEq, Repr

/-- Python truthiness of an optional string (`None` and `""` are falsy). -/
def pyTruthy : Option String → Bool
  | none => false
  | some s => !(s = "")

/-- `main.py` lines 266-267: if `args.data_type` is a truthy string, replace
its hyphens with underscores. -/
def normDT : Option String → Option String
  | none => none
  | some s => if s = "" then some s else some (pyReplaceDashUnderscore s)

/-- Modelled from the spec: `validate_language_and_data_type` lives in
`scribe_data.cli.cli_utils`, which is not among the embedded sources.  Per the
spec it checks any supplied `--language` / `--data-type` value against the
Vocabulary Registry and raises a `ValueError` naming the unknown token;
omitted (falsy) values are not checked. -/
def validate_language_and_data_type (reg : Registry) (language data_type : Option String) :
    Except String Unit :=
  match language with
  | some l =>
    if l ≠ "" ∧ ¬ reg.languages.contains l then
      Except.error ("Invalid language " ++ l ++ ".")
    else
      match data_type with
      | some d =>
        if d ≠ "" ∧ ¬ reg.data_types.contains d then
          Except.error ("Invalid data-type " ++ d ++ ".")
        else Except.ok ()
      | none => Except.ok ()
  | none =>
    match data_type with
    | some d =>
      if d ≠ "" ∧ ¬ reg.data_types.contains d then
        Except.error ("Invalid data-type " ++ d ++ ".")
      else Except.ok ()
    | none => Except.ok ()

/-- The observable outcome of one `main` invocation: which collaborator was
reached with which arguments, or how the invocation ended early. -/
inductive MainResult
  | validationFailed (msg : String)
  | upgraded
  | helpShown
  | interactiveMode (operation : String)
  | listCall (language data_type : Option String) (all : Option Bool)
  | getDataCall (language data_type : String) (output_type output_dir : Option String)
      (outputs_per_entry : Option Nat) (overwrite : Bool) (all : Option Bool)
      (identifier_case : String)
  | totalCall (language data_type : Option String) (all : Option Bool)
  | convertCall (language : String) (data_type output_type : Option String)
      (output_dir : Option String) (overwrite : Bool) (identifier_case : String)
  | pyAttributeError
deriving DecidableEq, Repr

/-- The dispatch part of `main` (`main.py` lines 279-336), reached after
validation: the `--upgrade` short-circuit, the missing-command help text, and
the four subcommand branches.  `args.language.lower()` on a missing value is
Python `None.lower()`, an uncaught `AttributeError`, modelled by
`MainResult.pyAttributeError`. -/
def mainDispatch (a : Args) : MainResult :=
  if a.upgrade then MainResult.upgraded
  else
    match a.command with
    | none => MainResult.helpShown
    | some Cmd.list => MainResult.listCall a.language a.data_type a.all
    | some Cmd.get =>
      if a.interactive then MainResult.interactiveMode "get"
      else
        match a.language, a.data_type with
        | some l, some d =>
          MainResult.getDataCall (pyLower l) (pyLower d) a.output_type a.output_dir
            a.outputs_per_entry a.overwrite a.all a.identifier_case
        | _, _ => MainResult.pyAttributeError
    | some Cmd.total =>
      if a.interactive then MainResult.interactiveMode "total"
      else
        MainResult.totalCall (a.language.map pyLower) (a.data_type.map pyLower) a.all
    | some Cmd.convert =>
      match a.language with
      | some l =>
        MainResult.convertCall (pyLower l) a.data_type a.output_type a.output_dir
          a.overwrite a.identifier_case
      | none => MainResult.pyAttributeError

/-- `main` after argument parsing (`main.py` lines 264-336): normalise the
data-type token, run registry validation when either value is truthy
(returning early with the printed error when it raises `ValueError`), then
dispatch. -/
def scribeMain (reg : Registry) (a : Args) : MainResult :=
  let a' := { a with data_type := normDT a.data_type }
  if pyTruthy a'.language || pyTruthy a'.data_type then
    match validate_language_and_data_type reg a'.language a'.data_type with
    | Except.error e => MainResult.validationFailed e
    | Except.ok _ => mainDispatch a'
  else mainDispatch a'

/-- Is the outcome an invocation of the fetch/format/export path `get_data`? -/
def isGetDataCall : MainResult → Bool
  | MainResult.getDataCall _ _ _ _ _ _ _ _ => true
  | _ => false

/-- Is the outcome a clean rejection of the invocation (a printed validation
error or help text), as opposed to a subcommand run or a crash? -/
def isRejection : MainResult → Bool
  | MainResult.validationFailed _ => true
  | MainResult.helpShown => true
  | _ => false

/-- Did the invocation run a subcommand collaborator? -/
def ranSubcommand : MainResult → Bool
  | MainResult.listCall _ _ _ => true
  | MainResult.getDataCall _ _ _ _ _ _ _ _ => true
  | MainResult.totalCall _ _ _ => true
  | MainResult.convertCall _ _ _ _ _ _ => true
  | MainResult.interactiveMode _ => true
  | _ => false

/-! ## `format_verbs.py`: the Portuguese verbs formatter -/

/-- Python `dict` lookup on an association list (keys are unique). -/
def dictGet? (k : String) : List (String × α) → Option α
  | [] => none
  | (k', v) :: rest => if k' = k then some v else dictGet? k rest

/-- Python `dict` assignment `d[k] = v`: replace in place when the key is
present, append otherwise. -/
def dictInsert (k : String) (v : α) : List (String × α) → List (String × α)
  | [] => [(k, v)]
  | (k', v') :: rest =>
    if k' = k then (k, v) :: rest else (k', v') :: dictInsert k v rest

/-- The canonical 24 conjugation fields of `format_verbs.py`. -/
def all_conjugations : List String :=
  ["presFPS", "presSPS", "presTPS", "presFPP", "presSPP", "presTPP",
   "perfFPS", "perfSPS", "perfTPS", "perfFPP", "perfSPP", "perfTPP",
   "impFPS", "impSPS", "impTPS", "impFPP", "impSPP", "impTPP",
   "fSimpFPS", "fSimpSPS", "fSimpTPS", "fSimpFPP", "fSimpSPP", "fSimpTPP"]

/-- The inner `for conj in all_conjugations` loop: starting from the fresh
`{}`, assign each canonical field the row's value when present and `""`
otherwise. -/
def formatVerbRow (row : List (String × String)) : List (String × String) :=
  all_conjugations.foldl
    (fun entry conj => dictInsert conj ((dictGet? conj row).getD "") entry) []

/-- The outer `for verb_vals in verbs_list` loop: build the
`verbs_formatted` dict keyed by each row's `"infinitive"` value.  A row
missing the `"infinitive"` key is a Python `KeyError`, modelled as `none`. -/
def buildVerbsFormatted (rows : List (List (String × String))) :
    Option (List (String × List (String × String))) :=
  rows.foldlM
    (fun acc row =>
      match dictGet? "infinitive" row with
      | none => none
      | some inf => some (dictInsert inf (formatVerbRow row) acc))
    []

/-- Insert `x` into a `le`-sorted list, keeping it sorted. -/
def insertSorted (le : α → α → Bool) (x : α) : List α → List α
  | [] => [x]
  | y :: ys => if le y x then y :: insertSorted le x ys else x :: y :: ys

/-- Insertion sort with a boolean comparison (models Python `sorted` on the
distinct-keyed dict items). -/
def insortBy (le : α → α → Bool) : List α → List α
  | [] => []
  | x :: xs => insertSorted le x (insortBy le xs)

/-- `verbs_formatted` after line 57 of `format_verbs.py`:
`collections.OrderedDict(sorted(verbs_formatted.items()))` — the dict built
from the rows, with its entries sorted by the infinitive key. -/
def verbs_formatted (rows : List (List (String × String))) :
    Option (List (String × List (String × String))) :=
  (buildVerbsFormatted rows).map (insortBy (fun a b => pyStrLe a.1 b.1))

/-! ## Lemmas about the request runner -/

theorem callsOf_append (a b : List REvent) :
    callsOf (a ++ b) = callsOf a ++ callsOf b := by
  induction a with
  | nil => rfl
  | cons e rest ih => cases e <;> simp [callsOf, ih]

theorem outcomesOf_append (a b : List REvent) :
    outcomesOf (a ++ b) = outcomesOf a ++ outcomesOf b := by
  induction a with
  | nil => rfl
  | cons e rest ih => cases e <;> simp [outcomesOf, ih]

theorem callsOf_processPair (g : String → String → Bool) (l d : String) :
    callsOf (processPair g l d) = [(l, d)] := by
  cases hg : g l d <;> simp [processPair, hg, callsOf]

theorem outcomesOf_processPair (g : String → String → Bool) (l d : String) :
    outcomesOf (processPair g l d) = [g l d] := by
  cases hg : g l d <;> simp [processPair, hg, outcomesOf]

theorem callsOf_processDataTypes (g : String → String → Bool) (l : String)
    (dts : List String) :
    callsOf (processDataTypes g l dts) = dts.map (fun d => (l, d)) := by
  induction dts with
  | nil => rfl
  | cons d rest ih =>
    simp [processDataTypes, callsOf_append, callsOf_processPair, ih]

theorem outcomesOf_processDataTypes (g : String → String → Bool) (l : String)
    (dts : List String) :
    outcomesOf (processDataTypes g l dts) = dts.map (fun d => g l d) := by
  induction dts with
  | nil => rfl
  | cons d rest ih =>
    simp [processDataTypes, outcomesOf_append, outcomesOf_processPair, ih]

theorem callsOf_processLanguages (g : String → String → Bool)
    (dts langs : List String) :
    callsOf (processLanguages g dts langs) = pairsOf langs dts := by
  induction langs with
  | nil => rfl
  | cons l rest ih =>
    simp [processLanguages, pairsOf, callsOf_append, callsOf_processDataTypes, ih]

theorem outcomesOf_processLanguages (g : String → String → Bool)
    (dts langs : List String) :
    outcomesOf (processLanguages g dts langs) =
      (pairsOf langs dts).map (fun p => g p.1 p.2) := by
  induction langs with
  | nil => rfl
  | cons l rest ih =>
    simp [processLanguages, pairsOf, outcomesOf_append, outcomesOf_processDataTypes, ih,
      Function.comp_def]

theorem length_pairsOf (langs dts : List String) :
    (pairsOf langs dts).length = langs.length * dts.length := by
  induction langs with
  | nil => simp [pairsOf]
  | cons l rest ih =>
    simp only [pairsOf, List.flatMap_cons, List.length_append, List.length_map,
      List.length_cons] at *
    rw [ih]
    ring

theorem pairsOf_right_nil (langs : List String) : pairsOf langs [] = [] := by
  simp [pairsOf]

theorem callsOf_completion_notice (b : Bool) (m : String) :
    callsOf (if b then [REvent.notice m] else []) = [] := by
  cases b <;> rfl

theorem outcomesOf_completion_notice (b : Bool) (m : String) :
    outcomesOf (if b then [REvent.notice m] else []) = [] := by
  cases b <;> rfl

theorem run_request_nonempty_cond (cfg : ScribeDataConfig)
    (h1 : cfg.selected_languages ≠ []) (h2 : cfg.selected_data_types ≠ []) :
    (cfg.selected_languages.isEmpty || cfg.selected_data_types.isEmpty) = false := by
  cases hL : cfg.selected_languages with
  | nil => exact absurd hL h1
  | cons a as =>
    cases hD : cfg.selected_data_types with
    | nil => exact absurd hD h2
    | cons b bs => rfl

/-- C1: for every configuration with non-empty `selected_languages` and
`selected_data_types`, `run_request` invokes `get_data` exactly
`|selected_languages| * |selected_data_types|` times, once per
(language, data type) pair, languages in the outer loop and data types in the
inner loop, each in list order. -/
theorem run_request_cross_product (cfg : ScribeDataConfig)
    (get_data : String → String → Bool)
    (h1 : cfg.selected_languages ≠ []) (h2 : cfg.selected_data_types ≠ []) :
    callsOf (run_request cfg get_data).1 =
      pairsOf cfg.selected_languages cfg.selected_data_types ∧
    (callsOf (run_request cfg get_data).1).length =
      cfg.selected_languages.length * cfg.selected_data_types.length := by
  have hcond := run_request_nonempty_cond cfg h1 h2
  have hcalls : callsOf (run_request cfg get_data).1 =
      pairsOf cfg.selected_languages cfg.selected_data_types := by
    simp [run_request, hcond, callsOf_append, callsOf_processLanguages,
      callsOf_completion_notice]
  exact ⟨hcalls, by rw [hcalls, length_pairsOf]⟩

def cfgC1 : ScribeDataConfig :=
  ⟨["French", "German"], ["nouns"], ["French", "German"], ["nouns"],
   "json", "scribe_data_json_export", true, true⟩

def oraC1 : String → String → Bool := fun l _ => l == "French"

theorem run_request_cross_product_witness :
    callsOf (run_request cfgC1 oraC1).1 =
      pairsOf cfgC1.selected_languages cfgC1.selected_data_types ∧
    (callsOf (run_request cfgC1 oraC1).1).length =
      cfgC1.selected_languages.length * cfgC1.selected_data_types.length :=
  run_request_cross_product cfgC1 oraC1 (by decide) (by decide)

/-- C2: for every configuration and every per-pair outcome assignment,
`run_request` records one success/failure outcome per pair, in pair order
(so the batch always completes, even when every pair fails), and the sequence
of `get_data` invocations does not depend on the outcomes at all: a failure on
one pair never prevents a later pair from being processed. -/
theorem run_request_partial_failure (cfg : ScribeDataConfig)
    (g1 g2 : String → String → Bool) :
    outcomesOf (run_request cfg g1).1 =
      (pairsOf cfg.selected_languages cfg.selected_data_types).map
        (fun p => g1 p.1 p.2) ∧
    callsOf (run_request cfg g1).1 = callsOf (run_request cfg g2).1 := by
  by_cases hc : (cfg.selected_languages.isEmpty || cfg.selected_data_types.isEmpty) = true
  · have hemp : pairsOf cfg.selected_languages cfg.selected_data_types = [] := by
      rcases Bool.or_eq_true_iff.mp hc with h | h
      · rw [List.isEmpty_iff.mp h]; rfl
      · rw [List.isEmpty_iff.mp h]; exact pairsOf_right_nil _
    simp [run_request, hc, hemp, outcomesOf, callsOf]
  · have hc' : (cfg.selected_languages.isEmpty || cfg.selected_data_types.isEmpty) = false :=
      Bool.not_eq_true _ ▸ Bool.of_not_eq_true hc
    constructor
    · simp [run_request, hc', outcomesOf_append, outcomesOf_processLanguages,
        outcomesOf_completion_notice]
    · simp [run_request, hc', callsOf_append, callsOf_processLanguages,
        callsOf_completion_notice]

/-- C10: for every configuration whose `selected_languages` or
`selected_data_types` is empty, `run_request` prints the error message and
returns immediately: no `get_data` invocation happens and the configuration is
left untouched. -/
theorem run_request_empty_guard (cfg : ScribeDataConfig)
    (g : String → String → Bool)
    (h : cfg.selected_languages = [] ∨ cfg.selected_data_types = []) :
    (run_request cfg g).1 =
      [REvent.errMsg "[bold red]Error: Please configure languages and data types.[/bold red]"] ∧
    callsOf (run_request cfg g).1 = [] ∧
    (run_request cfg g).2 = cfg := by
  have hc : (cfg.selected_languages.isEmpty || cfg.selected_data_types.isEmpty) = true := by
    rcases h with h | h <;> simp [h]
  refine ⟨?_, ?_, ?_⟩ <;> simp [run_request, hc, callsOf]

def cfgC10 : ScribeDataConfig :=
  ⟨["English", "French"], ["nouns", "verbs"], [], ["nouns"],
   "json", "scribe_data_json_export", false, false⟩

theorem run_request_empty_guard_witness :
    (run_request cfgC10 oraC1).1 =
      [REvent.errMsg "[bold red]Error: Please configure languages and data types.[/bold red]"] ∧
    callsOf (run_request cfgC10 oraC1).1 = [] ∧
    (run_request cfgC10 oraC1).2 = cfgC10 :=
  run_request_empty_guard cfgC10 oraC1 (Or.inl rfl)

/-! ## Lemmas about the selection steps (C3–C6) -/

theorem charToLower_eq_y {c : Char} (h : c.toLower = 'y') : c = 'y' ∨ c = 'Y' := by
  have h' : (if c.toNat ≥ 65 ∧ c.toNat ≤ 90 then Char.ofNat (c.toNat + 32) else c) = 'y' := h
  by_cases hrange : c.toNat ≥ 65 ∧ c.toNat ≤ 90
  · rw [if_pos hrange] at h'
    right
    have hv : (c.toNat + 32).isValidChar := Or.inl (by omega)
    have hn : (Char.ofNat (c.toNat + 32)).toNat = c.toNat + 32 := by
      rw [Char.ofNat, dif_pos hv]
      rfl
    have h121 : (Char.ofNat (c.toNat + 32)).toNat = 121 := by rw [h']; rfl
    have h89 : c.toNat = 89 := by omega
    exact Char.ext (UInt32.toNat.inj h89)
  · rw [if_neg hrange] at h'
    left
    exact h'

theorem pyLower_eq_y {s : String} (h : pyLower s = "y") : s = "y" ∨ s = "Y" := by
  have hdata : s.data.map Char.toLower = ['y'] := congrArg String.data h
  rcases hsd : s.data with _ | ⟨c, cs⟩
  · rw [hsd] at hdata
    exact absurd hdata (by decide)
  · rw [hsd] at hdata
    simp only [List.map_cons, List.cons.injEq] at hdata
    obtain ⟨hc, hcs⟩ := hdata
    have hnil : cs = [] := List.map_eq_nil_iff.mp hcs
    rcases charToLower_eq_y hc with h1 | h1
    · left
      apply String.ext
      rw [hsd, hnil, h1]
    · right
      apply String.ext
      rw [hsd, hnil, h1]

/-- C3 counterexample: at the language-selection step the `"All"` test is a
case-sensitive substring check on the raw input, so the lower-case input
`"all"` does *not* select the full registry list — against a registry of
`["English", "French"]` it yields the empty selection instead. -/
theorem selection_all_case_counterexample :
    selectLanguagesStep ["English", "French"] "all" = [] ∧
    selectLanguagesStep ["English", "French"] "all" ≠ ["English", "French"] := by
  decide

/-- C3 amended: only the data-type step recognises `"All"` case-insensitively
(the test runs on `input.capitalize()`, so every letter-case variant of the
exact word `"all"` selects the full data-type list), while the language step
selects the full list exactly when the raw input contains the case-sensitive
substring `"All"`. -/
theorem selection_all_case_amended (langs dts : List String) (inputD inputL : String)
    (hD : inputD ∈ (["All", "ALL", "all", "aLl", "alL", "ALl", "AlL", "aLL"] : List String))
    (hL : pyIn "All" inputL = true) :
    selectDataTypesStep dts inputD = dts ∧ selectLanguagesStep langs inputL = langs := by
  constructor
  · have hcap : pyIn "All" (pyCapitalize inputD) = true := by
      fin_cases hD <;> decide
    simp [selectDataTypesStep, hcap]
  · simp [selectLanguagesStep, hL]

theorem selection_all_case_amended_witness :
    selectDataTypesStep ["nouns", "verbs"] "all" = ["nouns", "verbs"] ∧
    selectLanguagesStep ["English", "French"] "All" = ["English", "French"] :=
  selection_all_case_amended ["English", "French"] ["nouns", "verbs"] "all" "All"
    (by decide) (by decide)

/-- C4 counterexample: the input `"yes"` starts with `'y'`, yet the
overwrite step sets the flag to `false`, because the code compares the
lower-cased input for equality with the exact string `"y"`. -/
theorem overwrite_starts_with_y_counterexample :
    "yes".data.head? = some 'y' ∧ overwriteStep "yes" = false := by
  decide

/-- C4 amended: the empty input defaults the overwrite flag to `true`, and
exactly the inputs `"y"` and `"Y"` set it to `true`; every other input —
including longer strings that start with `y`/`Y`, such as `"yes"` — sets it to
`false`. -/
theorem overwrite_exact_y_amended (input : String) :
    overwriteStep input = true ↔ (input = "" ∨ input = "y" ∨ input = "Y") := by
  constructor
  · intro h
    by_cases hi : input = ""
    · exact Or.inl hi
    · rw [overwriteStep, if_neg hi, beq_iff_eq] at h
      exact Or.inr (pyLower_eq_y h)
  · intro h
    rcases h with h | h | h <;> subst h <;> decide

def cfgC5 : ScribeDataConfig :=
  ⟨["English"], ["nouns"], ["English"], [], "json", "scribe_data_json_export", false, false⟩

/-- C5 counterexample: at the data-type prompt of the concrete session
`cfgC5`, the all-invalid input `"xyz"` yields an empty selection, and the
session re-enters the *language* prompt (`return configure_settings()`
restarts from the top), not the data-type prompt at which the empty selection
occurred. -/
theorem reprompt_state_counterexample :
    selectDataTypesStep cfgC5.data_types "xyz" = [] ∧
    (stepDataTypes cfgC5 "xyz").2.1 = CState.langsState ∧
    CState.langsState ≠ CState.dtsState := by
  decide

/-- C5 amended: an all-invalid selection input emits a warning and re-enters
the configuration flow at its *first* prompt (the language prompt), because
the empty-selection branch restarts `configure_settings` from the top.  For
the language step this is the same state; for the data-type step it is the
language state, not the state at which the empty selection occurred.  The two
prompts are quantified over independent inputs, each guarded only by its own
empty-selection premise.  The retry is unbounded: any number of consecutive
invalid language responses keeps the session at the language prompt. -/
theorem reprompt_restart_amended (cfg : ScribeDataConfig) (inputL inputD : String) :
    (selectLanguagesStep cfg.languages inputL = [] →
      (stepLanguages cfg inputL).2.1 = CState.langsState ∧
      (stepLanguages cfg inputL).2.2 ≠ [] ∧
      ∀ n, (retryLanguages inputL cfg n).2 = CState.langsState) ∧
    (selectDataTypesStep cfg.data_types inputD = [] →
      (stepDataTypes cfg inputD).2.1 = CState.langsState ∧
      (stepDataTypes cfg inputD).2.2 ≠ []) := by
  constructor
  · intro hL
    refine ⟨by simp [stepLanguages, hL], by simp [stepLanguages, hL], ?_⟩
    intro n
    induction n generalizing cfg with
    | zero => rfl
    | succ n ih =>
      have hstep : (stepLanguages cfg inputL).2.1 = CState.langsState := by
        simp [stepLanguages, hL]
      have hlang : (stepLanguages cfg inputL).1.languages = cfg.languages := by
        simp [stepLanguages, hL]
      rw [retryLanguages, if_pos hstep]
      exact ih _ (by rw [hlang]; exact hL)
  · intro hD
    exact ⟨by simp [stepDataTypes, hD], by simp [stepDataTypes, hD]⟩

theorem reprompt_restart_amended_witness :
    ((stepLanguages cfgC5 "xyz").2.1 = CState.langsState ∧
      (stepLanguages cfgC5 "xyz").2.2 ≠ [] ∧
      ∀ n, (retryLanguages "xyz" cfgC5 n).2 = CState.langsState) ∧
    ((stepDataTypes cfgC5 "English").2.1 = CState.langsState ∧
      (stepDataTypes cfgC5 "English").2.2 ≠ []) :=
  ⟨(reprompt_restart_amended cfgC5 "xyz" "English").1 (by decide),
   (reprompt_restart_amended cfgC5 "xyz" "English").2 (by decide)⟩

/-- C6 counterexample: the data-type input `"all, nouns"` does not contain the
substring `"All"`, and its trimmed tokens filtered by registry membership give
`["nouns"]`; yet the code selects the whole registry `["nouns", "verbs"]`,
because `"all, nouns".capitalize()` = `"All, nouns"` contains `"All"`. -/
theorem mixed_tokens_counterexample :
    pyIn "All" "all, nouns" = false ∧
    ((pySplitComma "all, nouns").map pyStrip).filter
        (fun t => (["nouns", "verbs"] : List String).contains t) = ["nouns"] ∧
    selectDataTypesStep ["nouns", "verbs"] "all, nouns" = ["nouns", "verbs"] ∧
    (["nouns", "verbs"] : List String) ≠ ["nouns"] := by
  decide

/-- C6 amended: the language step behaves as claimed for every input not
containing the substring `"All"`; the data-type step needs the stronger
proviso that the *capitalised* input does not contain `"All"` (i.e. the input
does not begin with a case variant of `"all"`).  The two steps are quantified
over independent inputs, each guarded only by its own proviso.  Under it each
selection is exactly the registry-membership filter of the comma-split,
trimmed tokens — an order-preserving subsequence of the tokens, every element
of which is a registry member; non-member tokens are dropped with no error. -/
theorem mixed_tokens_amended (langs dts : List String) (inputL inputD : String) :
    (pyIn "All" inputL = false →
      selectLanguagesStep langs inputL =
        ((pySplitComma inputL).map pyStrip).filter (fun t => langs.contains t) ∧
      List.Sublist (selectLanguagesStep langs inputL)
        ((pySplitComma inputL).map pyStrip) ∧
      ∀ t ∈ selectLanguagesStep langs inputL, t ∈ langs) ∧
    (pyIn "All" (pyCapitalize inputD) = false →
      selectDataTypesStep dts inputD =
        ((pySplitComma inputD).map pyStrip).filter (fun t => dts.contains t) ∧
      List.Sublist (selectDataTypesStep dts inputD)
        ((pySplitComma inputD).map pyStrip) ∧
      ∀ t ∈ selectDataTypesStep dts inputD, t ∈ dts) := by
  constructor
  · intro hL
    have h1 : selectLanguagesStep langs inputL =
        ((pySplitComma inputL).map pyStrip).filter (fun t => langs.contains t) := by
      simp [selectLanguagesStep, hL]
    refine ⟨h1, ?_, ?_⟩
    · rw [h1]
      exact List.filter_sublist _
    · intro t ht
      rw [h1] at ht
      have := (List.mem_filter.mp ht).2
      simpa using this
  · intro hD
    have h2 : selectDataTypesStep dts inputD =
        ((pySplitComma inputD).map pyStrip).filter (fun t => dts.contains t) := by
      simp [selectDataTypesStep, hD]
    refine ⟨h2, ?_, ?_⟩
    · rw [h2]
      exact List.filter_sublist _
    · intro t ht
      rw [h2] at ht
      have := (List.mem_filter.mp ht).2
      simpa using this

theorem mixed_tokens_amended_witness :
    (selectLanguagesStep ["French", "German"] "all, French" =
      ((pySplitComma "all, French").map pyStrip).filter
        (fun t => (["French", "German"] : List String).contains t) ∧
     List.Sublist (selectLanguagesStep ["French", "German"] "all, French")
       ((pySplitComma "all, French").map pyStrip) ∧
     (∀ t ∈ selectLanguagesStep ["French", "German"] "all, French",
       t ∈ (["French", "German"] : List String))) ∧
    (selectDataTypesStep ["nouns", "verbs"] "xAll, nouns" =
      ((pySplitComma "xAll, nouns").map pyStrip).filter
        (fun t => (["nouns", "verbs"] : List String).contains t) ∧
     List.Sublist (selectDataTypesStep ["nouns", "verbs"] "xAll, nouns")
       ((pySplitComma "xAll, nouns").map pyStrip) ∧
     (∀ t ∈ selectDataTypesStep ["nouns", "verbs"] "xAll, nouns",
       t ∈ (["nouns", "verbs"] : List String))) :=
  ⟨(mixed_tokens_amended ["French", "German"] ["nouns", "verbs"]
      "all, French" "xAll, nouns").1 (by decide),
   (mixed_tokens_amended ["French", "German"] ["nouns", "verbs"]
      "all, French" "xAll, nouns").2 (by decide)⟩

/-! ## Lemmas about the command surface (C7, C8) -/

theorem validate_falsy_ok (reg : Registry) (l d : Option String)
    (hl : pyTruthy l = false) (hd : pyTruthy d = false) :
    validate_language_and_data_type reg l d = Except.ok () := by
  rcases l with _ | l <;> rcases d with _ | d <;>
    simp [pyTruthy] at hl hd <;>
    simp [validate_language_and_data_type, *]

/-- C8: whenever registry validation of the supplied `--language` /
`--data-type` values (the data-type token hyphen-normalised first) raises, the
CLI prints exactly that error and returns: no subcommand collaborator runs and
the process does not crash. -/
theorem cli_validation_guard (reg : Registry) (a : Args) (msg : String)
    (hfail : validate_language_and_data_type reg a.language (normDT a.data_type) =
      Except.error msg) :
    scribeMain reg a = MainResult.validationFailed msg ∧
    ranSubcommand (scribeMain reg a) = false := by
  have htruthy : (pyTruthy a.language || pyTruthy (normDT a.data_type)) = true := by
    cases hor : (pyTruthy a.language || pyTruthy (normDT a.data_type)) with
    | true => rfl
    | false =>
      have h1 : pyTruthy a.language = false := by
        cases h : pyTruthy a.language
        · rfl
        · rw [h] at hor; simp at hor
      have h2 : pyTruthy (normDT a.data_type) = false := by
        cases h : pyTruthy (normDT a.data_type)
        · rfl
        · rw [h] at hor; simp at hor
      rw [validate_falsy_ok reg _ _ h1 h2] at hfail
      cases hfail
  have hmain : scribeMain reg a = MainResult.validationFailed msg := by
    simp [scribeMain, htruthy, hfail]
  exact ⟨hmain, by rw [hmain]; rfl⟩

def regCLI : Registry := ⟨["english", "french", "portuguese"], ["nouns", "verbs"]⟩

def argsC8 : Args :=
  ⟨some Cmd.get, some "english", some "bad-type", some "json", none, none,
   false, none, false, "camel", false⟩

theorem cli_validation_guard_witness :
    scribeMain regCLI argsC8 = MainResult.validationFailed "Invalid data-type bad_type." ∧
    ranSubcommand (scribeMain regCLI argsC8) = false :=
  cli_validation_guard regCLI argsC8 "Invalid data-type bad_type." rfl

def argsC7 : Args :=
  ⟨some Cmd.get, none, some "nouns", none, none, none, false, none, false, "camel", false⟩

/-- C7 counterexample: a `get` invocation without `--interactive` that omits
`--language` (while supplying the valid `--data-type nouns`) is *not* rejected
before dispatch — the parser does not mark the flags required and validation
passes — instead the invocation reaches the `get` branch and crashes with an
uncaught `AttributeError` from `None.lower()`.  (`get_data` itself is still
never invoked.) -/
theorem get_required_flags_counterexample :
    argsC7.language = none ∧ argsC7.interactive = false ∧
    scribeMain regCLI argsC7 = MainResult.pyAttributeError ∧
    isRejection (scribeMain regCLI argsC7) = false := by
  decide

/-- C7 amended: the `get` parser does not declare `--language` / `--data-type`
required; an invocation omitting either never dispatches to `get_data`, but it
is not cleanly rejected either — unless validation of the other supplied value
fails first, it ends in an uncaught `AttributeError` from lower-casing the
missing value. -/
theorem get_required_flags_amended (reg : Registry) (a : Args)
    (hcmd : a.command = some Cmd.get) (hint : a.interactive = false)
    (hup : a.upgrade = false)
    (h : a.language = none ∨ a.data_type = none) :
    isGetDataCall (scribeMain reg a) = false ∧
    (scribeMain reg a = MainResult.pyAttributeError ∨
      ∃ msg, scribeMain reg a = MainResult.validationFailed msg) := by
  have hdisp : mainDispatch { a with data_type := normDT a.data_type } =
      MainResult.pyAttributeError := by
    rcases h with h | h
    · rcases hdt : normDT a.data_type with _ | d <;>
        simp [mainDispatch, hup, hcmd, hint, h, hdt]
    · have hdt : normDT a.data_type = none := by rw [h]; rfl
      rcases hl : a.language with _ | l <;>
        simp [mainDispatch, hup, hcmd, hint, hdt, hl]
  by_cases htr : (pyTruthy a.language || pyTruthy (normDT a.data_type)) = true
  · cases hv : validate_language_and_data_type reg a.language (normDT a.data_type) with
    | error e =>
      have hm : scribeMain reg a = MainResult.validationFailed e := by
        simp [scribeMain, htr, hv]
      rw [hm]
      exact ⟨rfl, Or.inr ⟨e, rfl⟩⟩
    | ok u =>
      have hm : scribeMain reg a = MainResult.pyAttributeError := by
        simp [scribeMain, htr, hv, hdisp]
      rw [hm]
      exact ⟨rfl, Or.inl rfl⟩
  · have htr' : (pyTruthy a.language || pyTruthy (normDT a.data_type)) = false := by
      simpa using htr
    have hm : scribeMain reg a = MainResult.pyAttributeError := by
      simp [scribeMain, htr', hdisp]
    rw [hm]
    exact ⟨rfl, Or.inl rfl⟩

theorem get_required_flags_amended_witness :
    isGetDataCall (scribeMain regCLI argsC7) = false ∧
    (scribeMain regCLI argsC7 = MainResult.pyAttributeError ∨
      ∃ msg, scribeMain regCLI argsC7 = MainResult.validationFailed msg) :=
  get_required_flags_amended regCLI argsC7 rfl rfl rfl (Or.inl rfl)

/-! ## Lemmas about the formatter dictionaries (C9) -/

theorem dictGet?_dictInsert_self (k : String) (v : α) (e : List (String × α)) :
    dictGet? k (dictInsert k v e) = some v := by
  induction e with
  | nil => simp [dictInsert, dictGet?]
  | cons p rest ih =>
    obtain ⟨k', v'⟩ := p
    by_cases h : k' = k
    · subst h; simp [dictInsert, dictGet?]
    · simp [dictInsert, dictGet?, h, ih]

theorem dictGet?_append_none (k : String) (e1 e2 : List (String × α))
    (h : dictGet? k e1 = none) :
    dictGet? k (e1 ++ e2) = dictGet? k e2 := by
  induction e1 with
  | nil => rfl
  | cons p rest ih =>
    obtain ⟨k', v'⟩ := p
    by_cases hk : k' = k
    · simp [dictGet?, hk] at h
    · simp only [dictGet?, if_neg hk] at h
      simpa [dictGet?, hk] using ih h

theorem dictInsert_fresh (k : String) (v : α) (e : List (String × α))
    (h : dictGet? k e = none) :
    dictInsert k v e = e ++ [(k, v)] := by
  induction e with
  | nil => rfl
  | cons p rest ih =>
    obtain ⟨k', v'⟩ := p
    by_cases hk : k' = k
    · simp [dictGet?, hk] at h
    · simp only [dictGet?, if_neg hk] at h
      simp [dictInsert, hk, ih h]

theorem mem_map_fst_dictInsert (k k' : String) (v : α) (e : List (String × α)) :
    k' ∈ (dictInsert k v e).map Prod.fst ↔ k' = k ∨ k' ∈ e.map Prod.fst := by
  induction e with
  | nil => simp [dictInsert]
  | cons p rest ih =>
    obtain ⟨k0, v0⟩ := p
    by_cases hk : k0 = k
    · subst hk
      simp [dictInsert]
    · simp only [dictInsert, if_neg hk, List.map_cons, List.mem_cons, ih]
      tauto

theorem nodup_map_fst_dictInsert (k : String) (v : α) (e : List (String × α))
    (h : (e.map Prod.fst).Nodup) :
    ((dictInsert k v e).map Prod.fst).Nodup := by
  induction e with
  | nil => simp [dictInsert]
  | cons p rest ih =>
    obtain ⟨k0, v0⟩ := p
    simp only [List.map_cons, List.nodup_cons] at h
    obtain ⟨hk0, hrest⟩ := h
    by_cases hk : k0 = k
    · subst hk
      simp only [dictInsert, if_pos rfl, ite_true, List.map_cons, List.nodup_cons]
      exact ⟨hk0, hrest⟩
    · simp only [dictInsert, if_neg hk, List.map_cons, List.nodup_cons]
      refine ⟨?_, ih hrest⟩
      rw [mem_map_fst_dictInsert]
      rintro (h1 | h1)
      · exact hk h1
      · exact hk0 h1

theorem mem_dictInsert (p : String × α) (k : String) (v : α) (e : List (String × α))
    (h : p ∈ dictInsert k v e) : p = (k, v) ∨ p ∈ e := by
  induction e with
  | nil => simpa [dictInsert] using h
  | cons q rest ih =>
    obtain ⟨k0, v0⟩ := q
    by_cases hk : k0 = k
    · subst hk
      simp only [dictInsert, if_pos rfl, ite_true, List.mem_cons] at h
      rcases h with h | h
      · exact Or.inl h
      · exact Or.inr (List.mem_cons_of_mem _ h)
    · simp only [dictInsert, if_neg hk, List.mem_cons] at h
      rcases h with h | h
      · exact Or.inr (List.mem_cons.mpr (Or.inl h))
      · rcases ih h with h' | h'
        · exact Or.inl h'
        · exact Or.inr (List.mem_cons_of_mem _ h')

theorem foldl_dictInsert_map (f : String → String) :
    ∀ (cs : List String) (e : List (String × String)),
      cs.Nodup → (∀ c ∈ cs, dictGet? c e = none) →
      cs.foldl (fun entry conj => dictInsert conj (f conj) entry) e =
        e ++ cs.map (fun c => (c, f c))
  | [], e, _, _ => by simp
  | c :: cs, e, hnd, hfresh => by
    simp only [List.foldl_cons]
    have hce : dictGet? c e = none := hfresh c (List.mem_cons_self c cs)
    rw [dictInsert_fresh c (f c) e hce]
    have hnd' : cs.Nodup := (List.nodup_cons.mp hnd).2
    have hcnot : c ∉ cs := (List.nodup_cons.mp hnd).1
    have hfresh' : ∀ c' ∈ cs, dictGet? c' (e ++ [(c, f c)]) = none := by
      intro c' hc'
      rw [dictGet?_append_none c' e _ (hfresh c' (List.mem_cons_of_mem _ hc'))]
      have hne : c ≠ c' := fun hcc => hcnot (hcc ▸ hc')
      simp [dictGet?, hne]
    rw [foldl_dictInsert_map f cs (e ++ [(c, f c)]) hnd' hfresh']
    simp

theorem all_conjugations_nodup : all_conjugations.Nodup := by decide

theorem formatVerbRow_eq (row : List (String × String)) :
    formatVerbRow row =
      all_conjugations.map (fun c => (c, (dictGet? c row).getD "")) := by
  have := foldl_dictInsert_map (fun c => (dictGet? c row).getD "")
    all_conjugations [] all_conjugations_nodup (by intro c _; rfl)
  simpa [formatVerbRow] using this

theorem dictGet?_map_self (f : String → String) :
    ∀ (cs : List String) (c : String), c ∈ cs → cs.Nodup →
      dictGet? c (cs.map (fun x => (x, f x))) = some (f c)
  | [], c, hc, _ => absurd hc (List.not_mem_nil c)
  | x :: cs, c, hc, hnd => by
    rcases List.mem_cons.mp hc with h | h
    · subst h
      simp [dictGet?]
    · have hne : x ≠ c := by
        rintro rfl
        exact (List.nodup_cons.mp hnd).1 h
      simp only [List.map_cons, dictGet?, if_neg hne]
      exact dictGet?_map_self f cs c h (List.nodup_cons.mp hnd).2

theorem formatVerbRow_keys (row : List (String × String)) :
    (formatVerbRow row).map Prod.fst = all_conjugations := by
  rw [formatVerbRow_eq, List.map_map]
  simp [Function.comp_def]

theorem formatVerbRow_get (row : List (String × String)) (conj : String)
    (h : conj ∈ all_conjugations) :
    dictGet? conj (formatVerbRow row) = some ((dictGet? conj row).getD "") := by
  rw [formatVerbRow_eq]
  exact dictGet?_map_self _ all_conjugations conj h all_conjugations_nodup

theorem buildVerbsFormatted_go :
    ∀ (rows : List (List (String × String)))
      (acc : List (String × List (String × String))),
      (∀ row ∈ rows, (dictGet? "infinitive" row).isSome = true) →
      ∃ out, List.foldlM
          (fun acc row =>
            match dictGet? "infinitive" row with
            | none => none
            | some inf => some (dictInsert inf (formatVerbRow row) acc))
          acc rows = some out ∧
        ((acc.map Prod.fst).Nodup → (out.map Prod.fst).Nodup) ∧
        (∀ p ∈ out, p ∈ acc ∨
          ∃ row ∈ rows, dictGet? "infinitive" row = some p.1 ∧ p.2 = formatVerbRow row)
  | [], acc, _ => ⟨acc, rfl, id, fun p hp => Or.inl hp⟩
  | row :: rows, acc, hinf => by
    obtain ⟨inf, hrow⟩ : ∃ inf, dictGet? "infinitive" row = some inf :=
      Option.isSome_iff_exists.mp (hinf row (List.mem_cons_self row rows))
    have hinf' : ∀ r ∈ rows, (dictGet? "infinitive" r).isSome = true :=
      fun r hr => hinf r (List.mem_cons_of_mem _ hr)
    obtain ⟨out, hout, hnodup, hmem⟩ :=
      buildVerbsFormatted_go rows (dictInsert inf (formatVerbRow row) acc) hinf'
    refine ⟨out, ?_, ?_, ?_⟩
    · rw [List.foldlM_cons, hrow]
      simpa using hout
    · intro hacc
      exact hnodup (nodup_map_fst_dictInsert inf _ acc hacc)
    · intro p hp
      rcases hmem p hp with hp' | ⟨r, hr, h1, h2⟩
      · rcases mem_dictInsert p inf _ acc hp' with hpkv | hpacc
        · refine Or.inr ⟨row, List.mem_cons_self row rows, ?_, ?_⟩
          · rw [hrow, hpkv]
          · rw [hpkv]
        · exact Or.inl hpacc
      · exact Or.inr ⟨r, List.mem_cons_of_mem _ hr, h1, h2⟩

/-! ## Sorting lemmas (C9) -/

theorem charsLe_total : ∀ as bs : List Char, charsLe as bs = true ∨ charsLe bs as = true
  | [], _ => Or.inl rfl
  | _ :: _, [] => Or.inr rfl
  | a :: as, b :: bs => by
    rcases lt_trichotomy a b with h | h | h
    · left; simp [charsLe, h]
    · subst h
      simp only [charsLe, lt_irrefl, if_false]
      exact charsLe_total as bs
    · right; simp [charsLe, h]

theorem charsLe_trans : ∀ as bs cs : List Char,
    charsLe as bs = true → charsLe bs cs = true → charsLe as cs = true
  | [], _, _, _, _ => rfl
  | _ :: _, [], _, h1, _ => by simp [charsLe] at h1
  | _ :: _, _ :: _, [], _, h2 => by simp [charsLe] at h2
  | a :: as, b :: bs, c :: cs, h1, h2 => by
    rcases lt_trichotomy a b with hab | hab | hab
    · rcases lt_trichotomy b c with hbc | hbc | hbc
      · simp [charsLe, lt_trans hab hbc]
      · subst hbc; simp [charsLe, hab]
      · rw [charsLe, if_neg (by exact fun h => lt_asymm h hbc),
          if_pos hbc] at h2
        cases h2
    · subst hab
      simp only [charsLe, lt_irrefl, if_false] at h1
      rcases lt_trichotomy a c with hac | hac | hac
      · simp [charsLe, hac]
      · subst hac
        simp only [charsLe, lt_irrefl, if_false]
        simp only [charsLe, lt_irrefl, if_false] at h2
        exact charsLe_trans as bs cs h1 h2
      · rw [charsLe, if_neg (by exact fun h => lt_asymm h hac),
          if_pos hac] at h2
        cases h2
    · rw [charsLe, if_neg (by exact fun h => lt_asymm h hab),
        if_pos hab] at h1
      cases h1

theorem mem_insertSorted (le : α → α → Bool) (x y : α) :
    ∀ l : List α, y ∈ insertSorted le x l ↔ y = x ∨ y ∈ l
  | [] => by simp [insertSorted]
  | z :: zs => by
    by_cases h : le z x = true
    · simp only [insertSorted, if_pos h, List.mem_cons, mem_insertSorted le x y zs]
      tauto
    · simp only [insertSorted, if_neg h, List.mem_cons]

theorem pairwise_insertSorted (le : α → α → Bool)
    (htr : ∀ a b c, le a b = true → le b c = true → le a c = true)
    (hto : ∀ a b, le a b = true ∨ le b a = true) (x : α) :
    ∀ l : List α, l.Pairwise (fun a b => le a b = true) →
      (insertSorted le x l).Pairwise (fun a b => le a b = true)
  | [], _ => by simp [insertSorted]
  | z :: zs, h => by
    obtain ⟨hz, hzs⟩ := List.pairwise_cons.mp h
    by_cases hzx : le z x = true
    · rw [insertSorted, if_pos hzx]
      refine List.pairwise_cons.mpr ⟨?_, pairwise_insertSorted le htr hto x zs hzs⟩
      intro y hy
      rcases (mem_insertSorted le x y zs).mp hy with rfl | hy'
      · exact hzx
      · exact hz y hy'
    · rw [insertSorted, if_neg hzx]
      have hxz : le x z = true := (hto x z).resolve_right (fun h' => hzx h')
      refine List.pairwise_cons.mpr ⟨?_, h⟩
      intro y hy
      rcases List.mem_cons.mp hy with rfl | hy'
      · exact hxz
      · exact htr x z y hxz (hz y hy')

theorem perm_insertSorted (le : α → α → Bool) (x : α) :
    ∀ l : List α, List.Perm (insertSorted le x l) (x :: l)
  | [] => List.Perm.refl _
  | z :: zs => by
    by_cases h : le z x = true
    · rw [insertSorted, if_pos h]
      exact (List.Perm.cons z (perm_insertSorted le x zs)).trans
        (List.Perm.swap x z zs)
    · rw [insertSorted, if_neg h]

theorem pairwise_insortBy (le : α → α → Bool)
    (htr : ∀ a b c, le a b = true → le b c = true → le a c = true)
    (hto : ∀ a b, le a b = true ∨ le b a = true) :
    ∀ l : List α, (insortBy le l).Pairwise (fun a b => le a b = true)
  | [] => List.Pairwise.nil
  | x :: xs =>
    pairwise_insertSorted le htr hto x (insortBy le xs) (pairwise_insortBy le htr hto xs)

theorem perm_insortBy (le : α → α → Bool) : ∀ l : List α, List.Perm (insortBy le l) l
  | [] => List.Perm.refl _
  | x :: xs =>
    ((perm_insertSorted le x (insortBy le xs)).trans
      (List.Perm.cons x (perm_insortBy le xs)))

/-- C9: for every list of raw queried verb rows that each contain an
`"infinitive"` field, the Portuguese verbs formatter produces a mapping in
which every entry carries exactly the canonical 24 conjugation fields — each
equal to its row's value when present and to the empty string when absent,
never omitted — and whose entries are sorted by the (duplicate-free)
infinitive primary key. -/
theorem verbs_formatted_spec (rows : List (List (String × String)))
    (hinf : ∀ row ∈ rows, (dictGet? "infinitive" row).isSome = true) :
    ∃ out, verbs_formatted rows = some out ∧
      out.Pairwise (fun a b => pyStrLe a.1 b.1 = true) ∧
      (out.map Prod.fst).Nodup ∧
      (∀ p ∈ out, ∃ row ∈ rows,
        dictGet? "infinitive" row = some p.1 ∧
        p.2.map Prod.fst = all_conjugations ∧
        (∀ conj ∈ all_conjugations,
          dictGet? conj p.2 = some ((dictGet? conj row).getD ""))) := by
  obtain ⟨raw, hraw, hnodup, hmem⟩ := buildVerbsFormatted_go rows [] hinf
  have hbuild : buildVerbsFormatted rows = some raw := hraw
  refine ⟨insortBy (fun a b => pyStrLe a.1 b.1) raw, ?_, ?_, ?_, ?_⟩
  · rw [verbs_formatted, hbuild]
    rfl
  · refine pairwise_insortBy (fun a b => pyStrLe a.1 b.1) ?_ ?_ raw
    · intro a b c h1 h2
      exact charsLe_trans a.1.data b.1.data c.1.data h1 h2
    · intro a b
      exact charsLe_total a.1.data b.1.data
  · have hperm := (perm_insortBy (fun a b => pyStrLe a.1 b.1) raw).map Prod.fst
    exact (List.Perm.nodup_iff hperm).mpr (hnodup (by simp))
  · intro p hp
    have hp' : p ∈ raw := (perm_insortBy _ raw).mem_iff.mp hp
    rcases hmem p hp' with h0 | ⟨row, hrmem, h1, h2⟩
    · exact absurd h0 (List.not_mem_nil p)
    · refine ⟨row, hrmem, h1, ?_, ?_⟩
      · rw [h2]
        exact formatVerbRow_keys row
      · intro conj hconj
        rw [h2]
        exact formatVerbRow_get row conj hconj

def rowsC9 : List (List (String × String)) :=
  [[("infinitive", "falar"), ("presFPS", "falo")],
   [("infinitive", "comer"), ("presSPS", "comes")]]

theorem verbs_formatted_spec_witness :
    ∃ out, verbs_formatted rowsC9 = some out ∧
      out.Pairwise (fun a b => pyStrLe a.1 b.1 = true) ∧
      (out.map Prod.fst).Nodup ∧
      (∀ p ∈ out, ∃ row ∈ rowsC9,
        dictGet? "infinitive" row = some p.1 ∧
        p.2.map Prod.fst = all_conjugations ∧
        (∀ conj ∈ all_conjugations,
          dictGet? conj p.2 = some ((dictGet? conj row).getD ""))) :=
  verbs_formatted_spec rowsC9 (by decide)
